import Mathlib

/-!
Shallow embedding of the budget-controlled payment authorization and
resilience subsystem: the payment ledger, the budget manager, the
circuit breaker, the gateway fallback routing and the treasurer status
callback. Mutable JavaScript `Map` state is modelled as association
lists with first-match lookup and in-place replacement on `set`;
`BigInt` amounts are modelled as `Int`; wall-clock instants are passed
explicitly as parameters.
-/

namespace Walter

/-- Association-list model of a JavaScript `Map` keyed by strings. -/
abbrev AList (α : Type) : Type := List (String × α)

/-- Model of `Map.get`: first binding for the key, if any. -/
def aget {α : Type} (m : AList α) (k : String) : Option α :=
  match m with
  | [] => none
  | p :: rest => if p.1 = k then some p.2 else aget rest k

/-- Model of `Map.set`: replace the binding in place when the key is present,
append a fresh binding otherwise. -/
def aset {α : Type} (m : AList α) (k : String) (v : α) : AList α :=
  match m with
  | [] => [(k, v)]
  | p :: rest => if p.1 = k then (k, v) :: rest else p :: aset rest k v

/-- Model of `Map.delete`: drop every binding for the key. -/
def adel {α : Type} (m : AList α) (k : String) : AList α :=
  m.filter (fun p => ¬ p.1 = k)

/-- Ledger status vocabulary of `PaymentEntry["status"]`. -/
inductive LedgerStatus : Type
  | pending
  | accepted
  | rejected
  | error
deriving DecidableEq, Repr

/-- The one field of the x402 payment requirement that the subsystem
reads (`requirements.maxAmountRequired`), as an integer amount in base
units. -/
structure PaymentRequirements : Type where
  maxAmountRequired : Int
deriving DecidableEq, Repr

/-- A ledger entry (`PaymentEntry`). The opaque x402 payment payload is
carried as an uninterpreted string. -/
structure PaymentEntry : Type where
  id : String
  timestamp : Nat
  agentId : String
  toolName : String
  amount : Int
  status : LedgerStatus
  error : Option String
  requirements : PaymentRequirements
  payment : String
deriving DecidableEq, Repr

/-- Model of `PaymentLedger` state: the entry map and the per-day spending map. -/
structure PaymentLedger : Type where
  entries : AList PaymentEntry
  dailySpending : AList Int
deriving Repr

/-- A fresh `PaymentLedger`. -/
def PaymentLedger.empty : PaymentLedger := ⟨[], []⟩

/-- Model of `PaymentLedger.recordAuthorization`: install a fresh `pending`
entry under `id`. `now` is the creation timestamp taken from the
clock. -/
def PaymentLedger.recordAuthorization (l : PaymentLedger) (now : Nat)
    (id agentId toolName : String) (requirements : PaymentRequirements)
    (payment : String) : PaymentLedger :=
  let entry : PaymentEntry :=
    { id := id, timestamp := now, agentId := agentId, toolName := toolName,
      amount := requirements.maxAmountRequired, status := .pending,
      error := none, requirements := requirements, payment := payment }
  { l with entries := aset l.entries id entry }

/-- Model of `PaymentLedger.addToDailySpending`: add `amount` to the bucket for
`today` (the current UTC date string, passed explicitly). -/
def PaymentLedger.addToDailySpending (l : PaymentLedger) (today : String)
    (amount : Int) : PaymentLedger :=
  if today = "" then l
  else
    let current := (aget l.dailySpending today).getD 0
    { l with dailySpending := aset l.dailySpending today (current + amount) }

/-- Model of `PaymentLedger.updateStatus`: overwrite the entry's status (and
error text when a non-empty one is given); on `accepted`, credit the
daily bucket for `today`. Missing `id` is a no-op. -/
def PaymentLedger.updateStatus (l : PaymentLedger) (today : String)
    (id : String) (status : LedgerStatus) (error : Option String) :
    PaymentLedger :=
  match aget l.entries id with
  | none => l
  | some entry =>
    let entry1 := { entry with status := status }
    let entry2 :=
      match error with
      | some e => if e = "" then entry1 else { entry1 with error := some e }
      | none => entry1
    let l1 := { l with entries := aset l.entries id entry2 }
    if status = .accepted then l1.addToDailySpending today entry2.amount else l1

/-- Model of `PaymentLedger.getEntry`. -/
def PaymentLedger.getEntry (l : PaymentLedger) (id : String) :
    Option PaymentEntry :=
  aget l.entries id

/-- Model of `PaymentLedger.getTotalSpent`: sum of the amounts of `accepted`
entries. -/
def PaymentLedger.getTotalSpent (l : PaymentLedger) : Int :=
  l.entries.foldl
    (fun total p => if p.2.status = .accepted then total + p.2.amount else total) 0

/-- Model of `PaymentLedger.getSpentByAgent`: sum of the amounts of `accepted`
entries of one agent. -/
def PaymentLedger.getSpentByAgent (l : PaymentLedger) (agentId : String) : Int :=
  l.entries.foldl
    (fun total p =>
      if p.2.agentId = agentId ∧ p.2.status = .accepted then total + p.2.amount
      else total) 0

/-- Model of `PaymentLedger.getTodaySpending`: today's bucket, defaulting to 0. -/
def PaymentLedger.getTodaySpending (l : PaymentLedger) (today : String) : Int :=
  (aget l.dailySpending today).getD 0

/-- The persistence document produced by `exportToJson` and consumed by
`importFromJson`, with JSON (de)serialization modelled as the identity
on the structured data. -/
structure LedgerJson : Type where
  entries : List PaymentEntry
  dailySpending : AList Int
deriving Repr

/-- Model of `PaymentLedger.exportToJson`: entry values in map order plus the
daily-spending map. -/
def PaymentLedger.exportToJson (l : PaymentLedger) : LedgerJson :=
  { entries := l.entries.map Prod.snd, dailySpending := l.dailySpending }

/-- Model of `PaymentLedger.importFromJson`: clear the entry map, re-insert each
imported entry keyed by its own `id`, and replace the daily-spending
map wholesale. The previous ledger state is discarded entirely. -/
def PaymentLedger.importFromJson (_l : PaymentLedger) (data : LedgerJson) :
    PaymentLedger :=
  { entries := data.entries.foldl (fun m e => aset m e.id e) [],
    dailySpending := data.dailySpending }

/-- Model of `BudgetConfig`: all integer base units. -/
structure BudgetConfig : Type where
  totalBudget : Int
  dailyLimit : Int
  perRequestLimit : Int
  autoApproveUnder : Int
deriving DecidableEq, Repr

/-- Model of `AgentBudgetAllocation`. -/
structure AgentBudgetAllocation : Type where
  agentId : String
  allocated : Int
  reserved : Int
deriving DecidableEq, Repr

/-- Model of `BudgetManager` state: the configuration snapshot and the per-agent
allocation map. The ledger the manager reads from is passed to each
operation explicitly. -/
structure BudgetManager : Type where
  config : BudgetConfig
  agentAllocations : AList AgentBudgetAllocation
deriving Repr

/-- Model of `BudgetManager.allocateToAgent`: install an allocation with a zero
reserved counter, replacing any previous allocation for the agent. -/
def BudgetManager.allocateToAgent (bm : BudgetManager) (agentId : String)
    (amount : Int) : BudgetManager :=
  { bm with
      agentAllocations :=
        aset bm.agentAllocations agentId
          ({ agentId := agentId, allocated := amount, reserved := 0 }) }

/-- Which spend-limit check failed; stands for the human-readable
reason string attached to a denial. -/
inductive DenialReason : Type
  | perRequestLimit
  | dailyLimit
  | totalBudget
  | agentBudgetAllocation
deriving DecidableEq, Repr

/-- Result of `canApprove`: `{ allowed: boolean; reason?: string }`. -/
inductive ApproveResult : Type
  | allowed
  | denied (reason : DenialReason)
deriving DecidableEq, Repr

/-- Model of `BudgetManager.canApprove`, translated check for check from the
source: per-request limit, then daily limit, then total budget, then
the agent allocation when one exists. -/
def BudgetManager.canApprove (bm : BudgetManager) (ledger : PaymentLedger)
    (today : String) (agentId : String) (amount : Int) : ApproveResult :=
  if amount > bm.config.perRequestLimit then
    .denied .perRequestLimit
  else
    let todaySpending := ledger.getTodaySpending today
    if todaySpending + amount > bm.config.dailyLimit then
      .denied .dailyLimit
    else
      let totalSpent := ledger.getTotalSpent
      if totalSpent + amount > bm.config.totalBudget then
        .denied .totalBudget
      else
        match aget bm.agentAllocations agentId with
        | some allocation =>
          let agentSpent := ledger.getSpentByAgent agentId
          let agentReserved := allocation.reserved
          let agentAvailable := allocation.allocated - agentSpent - agentReserved
          if amount > agentAvailable then .denied .agentBudgetAllocation
          else .allowed
        | none => .allowed

/-- Model of `BudgetManager.isAutoApprovable`. -/
def BudgetManager.isAutoApprovable (bm : BudgetManager) (amount : Int) : Bool :=
  amount ≤ bm.config.autoApproveUnder

/-- Model of `BudgetManager.reserve`: re-run `canApprove`; on success increment
the allocation's reserved counter when an allocation exists. The
`Bool` is whether a fresh reservation token (a random UUID in the
source) was returned rather than `null`. -/
def BudgetManager.reserve (bm : BudgetManager) (ledger : PaymentLedger)
    (today agentId : String) (amount : Int) : Bool × BudgetManager :=
  match aget bm.agentAllocations agentId with
  | none =>
    match bm.canApprove ledger today agentId amount with
    | .denied _ => (false, bm)
    | .allowed => (true, bm)
  | some allocation =>
    match bm.canApprove ledger today agentId amount with
    | .denied _ => (false, bm)
    | .allowed =>
      (true,
        { bm with
            agentAllocations :=
              aset bm.agentAllocations agentId
                ({ allocation with reserved := allocation.reserved + amount }) })

/-- Model of `BudgetManager.releaseReservation`: decrement the reserved counter,
floored at zero; no-op when the agent has no allocation. -/
def BudgetManager.releaseReservation (bm : BudgetManager) (agentId : String)
    (amount : Int) : BudgetManager :=
  match aget bm.agentAllocations agentId with
  | none => bm
  | some allocation =>
    let reserved := allocation.reserved
    let release := amount
    { bm with
        agentAllocations :=
          aset bm.agentAllocations agentId
            ({ allocation with
                reserved := if reserved > release then reserved - release else 0 }) }

/-- Circuit-breaker state vocabulary; `opened` stands for the source's
"open" state (a reserved word in Lean). -/
inductive CircuitState : Type
  | closed
  | opened
  | halfOpen
deriving DecidableEq, Repr

/-- Model of `CircuitBreakerConfig`: thresholds and cooldown in milliseconds. -/
structure CircuitBreakerConfig : Type where
  failureThreshold : Nat
  successThreshold : Nat
  timeout : Nat
deriving DecidableEq, Repr

/-- Mutable state of one `CircuitBreaker`; `lastFailure` is the
millisecond timestamp of the last failure, when any. -/
structure CircuitBreaker : Type where
  state : CircuitState
  failures : Nat
  successes : Nat
  lastFailure : Option Nat
deriving DecidableEq, Repr

/-- A freshly constructed breaker: closed with zeroed counters. -/
def CircuitBreaker.initial : CircuitBreaker :=
  { state := .closed, failures := 0, successes := 0, lastFailure := none }

/-- Model of `CircuitBreaker.shouldAttemptReset`: true when there is no recorded
failure or the cooldown has elapsed since it. `now` is `Date.now()`. -/
def CircuitBreaker.shouldAttemptReset (cfg : CircuitBreakerConfig)
    (cb : CircuitBreaker) (now : Nat) : Bool :=
  match cb.lastFailure with
  | none => true
  | some t => (now : Int) - (t : Int) ≥ (cfg.timeout : Int)

/-- Model of `CircuitBreaker.getTimeUntilReset`: remaining cooldown, floored at
zero. -/
def CircuitBreaker.getTimeUntilReset (cfg : CircuitBreakerConfig)
    (cb : CircuitBreaker) (now : Nat) : Int :=
  match cb.lastFailure with
  | none => 0
  | some t => max 0 ((cfg.timeout : Int) - ((now : Int) - (t : Int)))

/-- Model of `CircuitBreaker.onSuccess`: zero the failure counter; while
half-open, count successes and close once the success threshold is
reached (zeroing the success counter). -/
def CircuitBreaker.onSuccess (cfg : CircuitBreakerConfig)
    (cb : CircuitBreaker) : CircuitBreaker :=
  let cb1 := { cb with failures := 0 }
  if cb1.state = .halfOpen then
    let cb2 := { cb1 with successes := cb1.successes + 1 }
    if cb2.successes ≥ cfg.successThreshold then
      { cb2 with state := .closed, successes := 0 }
    else cb2
  else cb1

/-- Model of `CircuitBreaker.onFailure`: count the failure, stamp it, zero the
success counter; reopen immediately from half-open, or open from
closed when the failure threshold is reached. -/
def CircuitBreaker.onFailure (cfg : CircuitBreakerConfig)
    (cb : CircuitBreaker) (now : Nat) : CircuitBreaker :=
  let cb1 := { cb with
                 failures := cb.failures + 1, lastFailure := some now,
                 successes := 0 }
  if cb1.state = .halfOpen then { cb1 with state := .opened }
  else if cb1.state = .closed ∧ cb1.failures ≥ cfg.failureThreshold then
    { cb1 with state := .opened }
  else cb1

/-- Observable outcome of one `execute` call: either rejected up front
with a `CircuitOpenError` carrying the remaining cooldown, or the
operation was invoked and its success or failure recorded. -/
inductive ExecResult : Type
  | rejectedOpen (retryAfterMs : Int)
  | completed (succeeded : Bool)
deriving DecidableEq, Repr

/-- Model of `CircuitBreaker.execute` at instant `now`, where `outcome` is
whether the guarded operation would succeed if invoked: transition
open to half-open once the cooldown has elapsed, reject while still
open, otherwise invoke the operation and record the outcome. -/
def CircuitBreaker.execute (cfg : CircuitBreakerConfig) (cb : CircuitBreaker)
    (now : Nat) (outcome : Bool) : ExecResult × CircuitBreaker :=
  let cb1 :=
    if cb.state = .opened ∧ cb.shouldAttemptReset cfg now = true then
      { cb with state := .halfOpen }
    else cb
  if cb1.state = .opened then
    (.rejectedOpen (cb1.getTimeUntilReset cfg now), cb1)
  else if outcome then (.completed true, cb1.onSuccess cfg)
  else (.completed false, cb1.onFailure cfg now)

/-- Model of `CircuitBreaker.reset`: force closed and zero everything. -/
def CircuitBreaker.reset (_cb : CircuitBreaker) : CircuitBreaker :=
  CircuitBreaker.initial

/-- Agent health vocabulary of the registry descriptor. -/
inductive AgentStatus : Type
  | healthy
  | degraded
  | offline
deriving DecidableEq, Repr

/-- The slice of `SubAgentDescriptor` the fallback routing reads: the
health status and the exposed tool names. -/
structure SubAgentDescriptor : Type where
  id : String
  status : AgentStatus
  tools : List String
deriving DecidableEq, Repr

/-- The registry lookup interface consumed by the gateway
(`registry.getAgent`). -/
structure Registry : Type where
  agents : AList SubAgentDescriptor

/-- Model of `ToolResult`: `{success: true, data}` or `{success: false, error}`,
with the payload flattened to a string. -/
inductive ToolResult : Type
  | success (data : String)
  | failure (error : String)
deriving DecidableEq, Repr

/-- The fallback loop of `callToolWithFallback`: walk the fallback ids
in order, skipping ids with no descriptor, unhealthy descriptors, and
descriptors not exposing the tool; call the rest through `callTool`
(abstracted as the oracle `call`) and return the first success; when
the list is exhausted, fail with the aggregate message naming the
primary. -/
def tryFallbacks (reg : Registry) (call : String → ToolResult)
    (toolName primaryAgentId : String) : List String → ToolResult
  | [] =>
    .failure ("All agents failed for tool " ++ toolName ++ ". Primary: " ++
      primaryAgentId)
  | fallbackId :: rest =>
    match aget reg.agents fallbackId with
    | none => tryFallbacks reg call toolName primaryAgentId rest
    | some fallbackAgent =>
      if ¬ fallbackAgent.status = .healthy then
        tryFallbacks reg call toolName primaryAgentId rest
      else if ¬ fallbackAgent.tools.contains toolName then
        tryFallbacks reg call toolName primaryAgentId rest
      else
        match call fallbackId with
        | .success d => .success d
        | .failure _ => tryFallbacks reg call toolName primaryAgentId rest

/-- Model of `SubAgentGateway.callToolWithFallback`: try the primary through
`callTool` (the oracle `call`); on failure run the fallback loop. -/
def callToolWithFallback (reg : Registry) (call : String → ToolResult)
    (primaryAgentId toolName : String) (fallbackIds : List String) :
    ToolResult :=
  match call primaryAgentId with
  | .success d => .success d
  | .failure _ => tryFallbacks reg call toolName primaryAgentId fallbackIds

/-- Model of `MasterTreasurer` state: the budget manager, the ledger, and the
pending correlation map from authorization id to
`(agentId, toolName)`. -/
structure MasterTreasurer : Type where
  budgetManager : BudgetManager
  ledger : PaymentLedger
  pendingContexts : AList (String × String)

/-- The status-mapping switch of `onStatus`: incoming x402 status
strings to ledger statuses, defaulting to `pending`. -/
def mapStatus (status : String) : LedgerStatus :=
  if status = "accepted" then .accepted
  else if status = "rejected" ∨ status = "declined" then .rejected
  else if status = "error" then .error
  else .pending

/-- Model of `MasterTreasurer.onStatus` for authorization `authId` on day
`today`: update the ledger with the mapped status; release the
correlated reservation for any status other than `accepted` and
`sending` (when the correlation and the ledger entry exist); drop the
correlation on the four recognized terminal statuses. -/
def MasterTreasurer.onStatus (t : MasterTreasurer) (today : String)
    (status : String) (authId : String) : MasterTreasurer :=
  let pendingContext := aget t.pendingContexts authId
  let ledgerStatus := mapStatus status
  let t1 := { t with ledger := t.ledger.updateStatus today authId ledgerStatus none }
  let t2 :=
    if ¬ status = "accepted" ∧ ¬ status = "sending" then
      match pendingContext with
      | some ctx =>
        match t1.ledger.getEntry authId with
        | some entry =>
          { t1 with
              budgetManager :=
                t1.budgetManager.releaseReservation ctx.1 entry.amount }
        | none => t1
      | none => t1
    else t1
  if (["accepted", "rejected", "declined", "error"] : List String).contains
      status then
    { t2 with pendingContexts := adel t2.pendingContexts authId }
  else t2

/-! Helper lemmas about the association-list map model. -/

theorem mem_aset {α : Type} {m : AList α} {k : String} {v : α}
    {p : String × α} (h : p ∈ aset m k v) : p = (k, v) ∨ p ∈ m := by
  induction m with
  | nil =>
    simp only [aset, List.mem_singleton] at h
    exact Or.inl h
  | cons q rest ih =>
    simp only [aset] at h
    by_cases hk : q.1 = k
    · rw [if_pos hk] at h
      rcases List.mem_cons.mp h with h | h
      · exact Or.inl h
      · exact Or.inr (List.mem_cons_of_mem _ h)
    · rw [if_neg hk] at h
      rcases List.mem_cons.mp h with h | h
      · exact Or.inr (h ▸ List.mem_cons_self _ _)
      · rcases ih h with h | h
        · exact Or.inl h
        · exact Or.inr (List.mem_cons_of_mem _ h)

theorem aget_aset_self {α : Type} (m : AList α) (k : String) (v : α) :
    aget (aset m k v) k = some v := by
  induction m with
  | nil => simp [aget, aset]
  | cons q rest ih =>
    by_cases hk : q.1 = k
    · simp [aget, aset, hk]
    · simpa [aget, aset, hk] using ih

theorem aget_aset_ne {α : Type} (m : AList α) (k k' : String) (v : α)
    (h : ¬ k' = k) : aget (aset m k v) k' = aget m k' := by
  induction m with
  | nil => simp [aget, aset, Ne.symm h]
  | cons q rest ih =>
    by_cases hk : q.1 = k
    · by_cases hk' : q.1 = k'
      · exact absurd (hk.symm.trans hk') (Ne.symm h)
      · simp [aget, aset, hk, hk', Ne.symm h]
    · by_cases hk' : q.1 = k'
      · simp only [aset, if_neg hk]
        simp [aget, hk']
      · simpa [aget, aset, hk, hk'] using ih

theorem length_aset_found {α : Type} (m : AList α) (k : String) (v : α)
    (h : (aget m k).isSome) : (aset m k v).length = m.length := by
  induction m with
  | nil => simp [aget] at h
  | cons q rest ih =>
    by_cases hk : q.1 = k
    · simp [aset, hk]
    · simp only [aget, if_neg hk] at h
      simp only [aset, if_neg hk, List.length_cons]
      rw [ih h]

theorem length_aset_missing {α : Type} (m : AList α) (k : String) (v : α)
    (h : aget m k = none) : (aset m k v).length = m.length + 1 := by
  induction m with
  | nil => simp [aset]
  | cons q rest ih =>
    by_cases hk : q.1 = k
    · simp [aget, hk] at h
    · simp only [aget, if_neg hk] at h
      simp only [aset, if_neg hk, List.length_cons]
      rw [ih h]

/-! Claim theorems. -/

/-- The spec's description of the approval policy: four checks in a
fixed order, short-circuiting on the first failure, the allocation
check applying only when an allocation exists. -/
def canApproveSpec (bm : BudgetManager) (ledger : PaymentLedger)
    (today : String) (agentId : String) (amount : Int) : ApproveResult :=
  if amount ≤ bm.config.perRequestLimit then
    if ledger.getTodaySpending today + amount ≤ bm.config.dailyLimit then
      if ledger.getTotalSpent + amount ≤ bm.config.totalBudget then
        match aget bm.agentAllocations agentId with
        | some allocation =>
          if allocation.allocated - ledger.getSpentByAgent agentId -
              allocation.reserved ≥ amount then
            .allowed
          else .denied .agentBudgetAllocation
        | none => .allowed
      else .denied .totalBudget
    else .denied .dailyLimit
  else .denied .perRequestLimit

/-- Claim C2: `canApprove` evaluates exactly the four checks of the
spec in order — per-request limit, daily limit, total budget, then the
agent allocation only when one exists — short-circuiting on the first
failure with the corresponding denial reason, and allowing otherwise. -/
theorem canApprove_matches_spec (bm : BudgetManager) (ledger : PaymentLedger)
    (today : String) (agentId : String) (amount : Int) :
    bm.canApprove ledger today agentId amount =
      canApproveSpec bm ledger today agentId amount := by
  unfold BudgetManager.canApprove canApproveSpec
  rcases hA : aget bm.agentAllocations agentId with _ | allocation <;>
    simp only [hA] <;> split_ifs <;> first | rfl | omega

/-- Claim C9: `allocateToAgent` installs an allocation whose reserved
counter is exactly zero, whatever allocation (and in-flight reserved
amount) the agent had before. -/
theorem allocateToAgent_zeroes_reserved (bm : BudgetManager)
    (agentId : String) (amount : Int) :
    aget (bm.allocateToAgent agentId amount).agentAllocations agentId =
      some ({ agentId := agentId, allocated := amount, reserved := 0 }) := by
  unfold BudgetManager.allocateToAgent
  exact aget_aset_self ..

/-- Claim C10: for an agent with no allocation, `reserve` returns a
token exactly when the global checks pass while mutating no state, and
`releaseReservation` leaves the state unchanged. -/
theorem reserve_release_without_allocation (bm : BudgetManager)
    (ledger : PaymentLedger) (today agentId : String) (amount : Int)
    (h : aget bm.agentAllocations agentId = none) :
    (bm.reserve ledger today agentId amount).2 = bm ∧
    ((bm.reserve ledger today agentId amount).1 = true ↔
      bm.canApprove ledger today agentId amount = .allowed) ∧
    bm.releaseReservation agentId amount = bm := by
  unfold BudgetManager.reserve BudgetManager.releaseReservation
  rw [h]
  refine ⟨?_, ?_, rfl⟩ <;>
    cases hc : bm.canApprove ledger today agentId amount <;> simp [hc]

/-- Closed instance of `reserve_release_without_allocation` at a
concrete manager with no allocations. -/
theorem reserve_release_without_allocation_witness :
    let bm : BudgetManager := ⟨⟨100, 50, 10, 1⟩, []⟩
    (bm.reserve PaymentLedger.empty "2026-01-01" "agent-1" 5).2 = bm ∧
    ((bm.reserve PaymentLedger.empty "2026-01-01" "agent-1" 5).1 = true ↔
      bm.canApprove PaymentLedger.empty "2026-01-01" "agent-1" 5 =
        .allowed) ∧
    bm.releaseReservation "agent-1" 5 = bm :=
  reserve_release_without_allocation ⟨⟨100, 50, 10, 1⟩, []⟩
    PaymentLedger.empty "2026-01-01" "agent-1" 5 (by decide)

/-- One-entry ledger with a pending authorization of amount 5,
exercising duplicate terminal status updates. -/
def c1Ledger : PaymentLedger :=
  PaymentLedger.empty.recordAuthorization 0 "auth-1" "agent-1" "tool-1"
    ⟨5⟩ "pay-1"

/-- Claim C1 fails on the code: `updateStatus` has no terminal guard.
A second `updateStatus (accepted)` on an already-accepted entry credits
the daily bucket again (10 instead of 5, while the accepted-entry total
stays 5), and a later `updateStatus (rejected)` overwrites the terminal
status, leaving the daily bucket at 5 with no accepted entry at all. -/
theorem updateStatus_terminal_not_guarded :
    ((c1Ledger.updateStatus "2026-01-01" "auth-1" .accepted
        none).getTodaySpending "2026-01-01" = 5) ∧
    (((c1Ledger.updateStatus "2026-01-01" "auth-1" .accepted
        none).updateStatus "2026-01-01" "auth-1" .accepted
        none).getTodaySpending "2026-01-01" = 10) ∧
    (((c1Ledger.updateStatus "2026-01-01" "auth-1" .accepted
        none).updateStatus "2026-01-01" "auth-1" .accepted
        none).getTotalSpent = 5) ∧
    (((c1Ledger.updateStatus "2026-01-01" "auth-1" .accepted
        none).updateStatus "2026-01-01" "auth-1" .rejected
        none).getTotalSpent = 0) ∧
    (((c1Ledger.updateStatus "2026-01-01" "auth-1" .accepted
        none).updateStatus "2026-01-01" "auth-1" .rejected
        none).getTodaySpending "2026-01-01" = 5) := by
  decide

theorem aget_mem {α : Type} {m : AList α} {k : String} {v : α}
    (h : aget m k = some v) : (k, v) ∈ m := by
  induction m with
  | nil => simp [aget] at h
  | cons q rest ih =>
    by_cases hk : q.1 = k
    · simp only [aget, if_pos hk, Option.some.injEq] at h
      have : (k, v) = q := by
        rw [← hk, ← h]
      exact this ▸ List.mem_cons_self _ _
    · simp only [aget, if_neg hk] at h
      exact List.mem_cons_of_mem _ (ih h)

/-- One step of the reserve/release lifecycle; a reserve step carries
the ledger snapshot and calendar day its `canApprove` check reads. -/
inductive BudgetOp : Type
  | reserveOp (ledger : PaymentLedger) (today agentId : String) (amount : Int)
  | releaseOp (agentId : String) (amount : Int)

/-- Run one lifecycle step against the budget manager. -/
def applyBudgetOp (bm : BudgetManager) : BudgetOp → BudgetManager
  | .reserveOp ledger today agentId amount =>
    (bm.reserve ledger today agentId amount).2
  | .releaseOp _agentId _amount =>
    bm.releaseReservation _agentId _amount

/-- A step's amount is admissible: reserve amounts are nonnegative
(amounts are base-unit currency quantities); release amounts are
unconstrained, double release included. -/
def opAmountOk : BudgetOp → Bool
  | .reserveOp _ _ _ amount => 0 ≤ amount
  | .releaseOp _ _ => true

/-- Every allocation's reserved counter is nonnegative. -/
def reservedNonneg (bm : BudgetManager) : Prop :=
  ∀ p ∈ bm.agentAllocations, 0 ≤ p.2.reserved

theorem reservedNonneg_reserve (bm : BudgetManager) (ledger : PaymentLedger)
    (today agentId : String) (amount : Int) (h0 : reservedNonneg bm)
    (ha : 0 ≤ amount) :
    reservedNonneg (bm.reserve ledger today agentId amount).2 := by
  unfold BudgetManager.reserve
  rcases hA : aget bm.agentAllocations agentId with _ | allocation
  · rcases hc : bm.canApprove ledger today agentId amount with _ | r <;>
      simpa [hc] using h0
  · rcases hc : bm.canApprove ledger today agentId amount with _ | r
    · simp only [hc]
      intro p hp
      rcases mem_aset hp with rfl | hp
      · have := h0 _ (aget_mem hA)
        simp only at this ⊢
        omega
      · exact h0 _ hp
    · simpa [hc] using h0

theorem reservedNonneg_release (bm : BudgetManager) (agentId : String)
    (amount : Int) (h0 : reservedNonneg bm) :
    reservedNonneg (bm.releaseReservation agentId amount) := by
  unfold BudgetManager.releaseReservation
  rcases hA : aget bm.agentAllocations agentId with _ | allocation
  · exact h0
  · intro p hp
    rcases mem_aset hp with rfl | hp
    · simp only
      split <;> omega
    · exact h0 _ hp

theorem reservedNonneg_foldl (ops : List BudgetOp) :
    ∀ bm : BudgetManager, reservedNonneg bm →
    (∀ op ∈ ops, opAmountOk op = true) →
    reservedNonneg (ops.foldl applyBudgetOp bm) := by
  induction ops with
  | nil =>
    intro bm h0 _
    exact h0
  | cons op rest ih =>
    intro bm h0 hops
    refine ih (applyBudgetOp bm op) ?_
      (fun o ho => hops o (List.mem_cons_of_mem _ ho))
    have hhead := hops op (List.mem_cons_self _ _)
    cases op with
    | reserveOp ledger today agentId amount =>
      exact reservedNonneg_reserve bm ledger today agentId amount h0
        (by simpa [opAmountOk] using hhead)
    | releaseOp agentId amount =>
      exact reservedNonneg_release bm agentId amount h0

/-- Claim C3: across any sequence of reserve and release steps with
nonnegative reserve amounts, every reserved counter stays nonnegative;
and one `releaseReservation` decrements an existing allocation's
reserved counter floored at zero, whatever amount is passed (double
release included). -/
theorem reserved_counter_stays_nonneg (bm : BudgetManager)
    (ops : List BudgetOp) (h0 : reservedNonneg bm)
    (hops : ∀ op ∈ ops, opAmountOk op = true) :
    reservedNonneg (ops.foldl applyBudgetOp bm) ∧
    (∀ (agentId : String) (amount : Int)
        (allocation : AgentBudgetAllocation),
      aget bm.agentAllocations agentId = some allocation →
      aget (bm.releaseReservation agentId amount).agentAllocations agentId =
        some ({ allocation with
                  reserved := max 0 (allocation.reserved - amount) })) := by
  refine ⟨reservedNonneg_foldl ops bm h0 hops, ?_⟩
  intro agentId amount allocation hA
  unfold BudgetManager.releaseReservation
  simp only [hA]
  rw [aget_aset_self]
  have : (if allocation.reserved > amount then allocation.reserved - amount
      else 0) = max 0 (allocation.reserved - amount) := by
    split <;> omega
  rw [this]

/-- Closed instance of `reserved_counter_stays_nonneg`: one allocation
of 10, a reserve of 4, then two releases of 4 (the second a double
release), all counters checked nonnegative and the floor checked. -/
theorem reserved_counter_stays_nonneg_witness :
    (reservedNonneg
      (([BudgetOp.reserveOp PaymentLedger.empty "2026-01-01" "agent-1" 4,
         BudgetOp.releaseOp "agent-1" 4,
         BudgetOp.releaseOp "agent-1" 4]).foldl applyBudgetOp
        ⟨⟨100, 50, 10, 1⟩, [("agent-1", ⟨"agent-1", 10, 0⟩)]⟩)) ∧
    (aget ((⟨⟨100, 50, 10, 1⟩,
        [("agent-1", ⟨"agent-1", 10, 0⟩)]⟩ :
          BudgetManager).releaseReservation "agent-1" 4).agentAllocations
        "agent-1" =
      some ⟨"agent-1", 10, max 0 (0 - 4)⟩) :=
  ⟨(reserved_counter_stays_nonneg
      ⟨⟨100, 50, 10, 1⟩, [("agent-1", ⟨"agent-1", 10, 0⟩)]⟩
      [BudgetOp.reserveOp PaymentLedger.empty "2026-01-01" "agent-1" 4,
       BudgetOp.releaseOp "agent-1" 4, BudgetOp.releaseOp "agent-1" 4]
      (by unfold reservedNonneg; decide) (by decide)).1,
   (reserved_counter_stays_nonneg
      ⟨⟨100, 50, 10, 1⟩, [("agent-1", ⟨"agent-1", 10, 0⟩)]⟩
      [] (by unfold reservedNonneg; decide) (by decide)).2 "agent-1" 4
      ⟨"agent-1", 10, 0⟩
      (by decide)⟩

/-- Claim C8 fails on the code: `recordAuthorization` with an id that
already exists does not fail; it silently replaces the previous entry
(here the agent and amount change and the entry count stays 1). -/
theorem recordAuthorization_replaces_existing :
    (((PaymentLedger.empty.recordAuthorization 0 "auth-1" "agent-1"
        "tool-1" ⟨5⟩ "pay-1").recordAuthorization 1 "auth-1" "agent-2"
        "tool-2" ⟨7⟩ "pay-2").getEntry "auth-1").map
        (fun e => (e.agentId, e.amount)) = some ("agent-2", 7) ∧
    ((PaymentLedger.empty.recordAuthorization 0 "auth-1" "agent-1"
        "tool-1" ⟨5⟩ "pay-1").recordAuthorization 1 "auth-1" "agent-2"
        "tool-2" ⟨7⟩ "pay-2").entries.length = 1 := by
  decide

/-- Claim C8 amended: `recordAuthorization` always succeeds, installing
a fresh `pending` entry under the id and leaving the daily buckets
untouched; a fresh id appends an entry, an existing id replaces the
previous entry in place. -/
theorem recordAuthorization_installs_pending (l : PaymentLedger) (now : Nat)
    (id agentId toolName : String) (req : PaymentRequirements)
    (payment : String) :
    (l.recordAuthorization now id agentId toolName req payment).getEntry id =
      some ({ id := id, timestamp := now, agentId := agentId,
              toolName := toolName, amount := req.maxAmountRequired,
              status := .pending, error := none, requirements := req,
              payment := payment }) ∧
    (l.recordAuthorization now id agentId toolName req payment).dailySpending =
      l.dailySpending ∧
    (l.getEntry id = none →
      (l.recordAuthorization now id agentId toolName
          req payment).entries.length = l.entries.length + 1) ∧
    ((l.getEntry id).isSome →
      (l.recordAuthorization now id agentId toolName
          req payment).entries.length = l.entries.length) := by
  refine ⟨aget_aset_self .., rfl, ?_, ?_⟩
  · intro h
    exact length_aset_missing _ _ _ h
  · intro h
    exact length_aset_found _ _ _ h

/-- Closed instance of `recordAuthorization_installs_pending` at a
fresh id on the empty ledger. -/
theorem recordAuthorization_installs_pending_witness :
    (PaymentLedger.empty.recordAuthorization 0 "auth-1" "agent-1" "tool-1"
        ⟨5⟩ "pay-1").entries.length = PaymentLedger.empty.entries.length + 1 :=
  (recordAuthorization_installs_pending PaymentLedger.empty 0 "auth-1"
      "agent-1" "tool-1" ⟨5⟩ "pay-1").2.2.1 (by decide)

/-- One failed `execute` call against the default gateway thresholds
(failure threshold 5, success threshold 2, cooldown `T`). -/
def failStep (T now : Nat) (cb : CircuitBreaker) : CircuitBreaker :=
  (CircuitBreaker.execute ⟨5, 2, T⟩ cb now false).2

/-- Claim C4: with failure threshold 5 and success threshold 2 — five
consecutive failed calls from a fresh closed breaker leave it open;
once the cooldown has elapsed since the last failure, the next call
transitions open to half-open and invokes the operation; two
consecutive successes from half-open close it and reset the success
counter; one failure while half-open reopens it at once. -/
theorem circuit_breaker_state_machine (T now t : Nat) :
    ((failStep T now (failStep T now (failStep T now (failStep T now
        (failStep T now CircuitBreaker.initial))))).state = .opened) ∧
    (∀ cb : CircuitBreaker, cb.state = .opened → cb.successes = 0 →
      cb.lastFailure = some t → (now : Int) - (t : Int) ≥ (T : Int) →
      (CircuitBreaker.execute ⟨5, 2, T⟩ cb now true).1 = .completed true ∧
      (CircuitBreaker.execute ⟨5, 2, T⟩ cb now true).2.state = .halfOpen ∧
      (CircuitBreaker.execute ⟨5, 2, T⟩ cb now true).2.successes = 1 ∧
      (CircuitBreaker.execute ⟨5, 2, T⟩ cb now false).2.state = .opened) ∧
    (∀ cb : CircuitBreaker, cb.state = .halfOpen → cb.successes = 0 →
      (CircuitBreaker.execute ⟨5, 2, T⟩ cb now true).2.state = .halfOpen ∧
      (CircuitBreaker.execute ⟨5, 2, T⟩
          (CircuitBreaker.execute ⟨5, 2, T⟩ cb now true).2 now
          true).2.state = .closed ∧
      (CircuitBreaker.execute ⟨5, 2, T⟩
          (CircuitBreaker.execute ⟨5, 2, T⟩ cb now true).2 now
          true).2.successes = 0) ∧
    (∀ cb : CircuitBreaker, cb.state = .halfOpen →
      (CircuitBreaker.execute ⟨5, 2, T⟩ cb now false).2.state = .opened) := by
  refine ⟨?_, ?_, ?_, ?_⟩
  · simp [failStep, CircuitBreaker.execute, CircuitBreaker.initial,
      CircuitBreaker.onFailure, CircuitBreaker.onSuccess]
  · rintro ⟨st, f, s, lf⟩ h1 h2 h3 hcool
    obtain rfl := h1
    obtain rfl := h2
    obtain rfl := h3
    have hsar : CircuitBreaker.shouldAttemptReset ⟨5, 2, T⟩
        ⟨.opened, f, 0, some t⟩ now = true := by
      simp only [CircuitBreaker.shouldAttemptReset, decide_eq_true_eq]
      omega
    simp [CircuitBreaker.execute, hsar, CircuitBreaker.onSuccess,
      CircuitBreaker.onFailure]
  · rintro ⟨st, f, s, lf⟩ h1 h2
    obtain rfl := h1
    obtain rfl := h2
    exact ⟨rfl, rfl, rfl⟩
  · rintro ⟨st, f, s, lf⟩ h1
    obtain rfl := h1
    rfl

/-- Closed instance of `circuit_breaker_state_machine`: cooldown 10,
last failure at 5, call at 20. -/
theorem circuit_breaker_state_machine_witness :
    ((CircuitBreaker.execute ⟨5, 2, 10⟩ ⟨.opened, 5, 0, some 5⟩ 20
        true).2.state = .halfOpen) ∧
    ((CircuitBreaker.execute ⟨5, 2, 10⟩ ⟨.halfOpen, 0, 0, some 5⟩ 20
        false).2.state = .opened) :=
  ⟨((circuit_breaker_state_machine 10 20 5).2.1 ⟨.opened, 5, 0, some 5⟩
      rfl rfl rfl (by decide)).2.1,
   (circuit_breaker_state_machine 10 20 5).2.2.2 ⟨.halfOpen, 0, 0, some 5⟩
      rfl⟩

/-- A fallback id qualifies when its descriptor exists in the
registry, is currently healthy, and exposes the requested tool. -/
def qualifies (reg : Registry) (toolName fallbackId : String) : Bool :=
  match aget reg.agents fallbackId with
  | none => false
  | some agent =>
    agent.status = .healthy && agent.tools.contains toolName

/-- The spec's description of the fallback behavior: the first
successful result among the qualifying fallback ids, in the given
order. -/
def firstFallbackSuccess (reg : Registry) (call : String → ToolResult)
    (toolName : String) (fallbackIds : List String) : Option ToolResult :=
  fallbackIds.findSome? (fun fallbackId =>
    if qualifies reg toolName fallbackId then
      match call fallbackId with
      | .success d => some (.success d)
      | .failure _ => none
    else none)

theorem tryFallbacks_eq (reg : Registry) (call : String → ToolResult)
    (toolName primaryAgentId : String) (fallbackIds : List String) :
    tryFallbacks reg call toolName primaryAgentId fallbackIds =
      (firstFallbackSuccess reg call toolName fallbackIds).getD
        (.failure ("All agents failed for tool " ++ toolName ++
          ". Primary: " ++ primaryAgentId)) := by
  induction fallbackIds with
  | nil => rfl
  | cons fallbackId rest ih =>
    rcases hA : aget reg.agents fallbackId with _ | agent
    · have hq : qualifies reg toolName fallbackId = false := by
        simp [qualifies, hA]
      simp only [tryFallbacks, hA, firstFallbackSuccess,
        List.findSome?_cons, hq]
      rw [if_neg Bool.false_ne_true]
      exact ih
    · by_cases hh : agent.status = .healthy
      · by_cases ht : agent.tools.contains toolName = true
        · have hq : qualifies reg toolName fallbackId = true := by
            have hm : toolName ∈ agent.tools := by simpa using ht
            simp [qualifies, hA, hh, hm]
          simp only [tryFallbacks, hA, firstFallbackSuccess,
            List.findSome?_cons, hq]
          rw [if_pos trivial, if_neg (not_not_intro hh),
            if_neg (not_not_intro ht)]
          rcases hc : call fallbackId with d | e
          · simp
          · exact ih
        · have hq : qualifies reg toolName fallbackId = false := by
            have hm : toolName ∉ agent.tools := fun hm => ht (by simpa using hm)
            simp [qualifies, hA, hm]
          simp only [tryFallbacks, hA, firstFallbackSuccess,
            List.findSome?_cons, hq]
          rw [if_neg Bool.false_ne_true, if_neg (not_not_intro hh),
            if_pos ht]
          exact ih
      · have hq : qualifies reg toolName fallbackId = false := by
          simp [qualifies, hA, hh]
        simp only [tryFallbacks, hA, firstFallbackSuccess,
          List.findSome?_cons, hq]
        rw [if_neg Bool.false_ne_true, if_pos hh]
        exact ih

/-- Claim C7: `callToolWithFallback` returns the primary's result when
it succeeds; on primary failure it returns the first success among the
fallbacks taken in order — skipping ids that are unregistered,
unhealthy, or missing the tool — and when no qualifying fallback
succeeds it returns the aggregate failure naming the primary id. -/
theorem callToolWithFallback_routing (reg : Registry)
    (call : String → ToolResult) (primaryAgentId toolName : String)
    (fallbackIds : List String) :
    (∀ d, call primaryAgentId = .success d →
      callToolWithFallback reg call primaryAgentId toolName fallbackIds =
        .success d) ∧
    (∀ e, call primaryAgentId = .failure e →
      callToolWithFallback reg call primaryAgentId toolName fallbackIds =
        (firstFallbackSuccess reg call toolName fallbackIds).getD
          (.failure ("All agents failed for tool " ++ toolName ++
            ". Primary: " ++ primaryAgentId))) := by
  constructor
  · intro d h
    simp [callToolWithFallback, h]
  · intro e h
    simp only [callToolWithFallback, h]
    exact tryFallbacks_eq reg call toolName primaryAgentId fallbackIds

/-- Closed instance of `callToolWithFallback_routing`: the primary
fails, the first fallback id is unregistered, and the healthy second
fallback exposing the tool answers. -/
theorem callToolWithFallback_routing_witness :
    callToolWithFallback
        ⟨[("fb-1", ⟨"fb-1", .healthy, ["tool-1"]⟩)]⟩
        (fun agentId =>
          if agentId = "fb-1" then .success "data-1" else .failure "down")
        "primary-1" "tool-1" ["ghost", "fb-1"] =
      (firstFallbackSuccess ⟨[("fb-1", ⟨"fb-1", .healthy, ["tool-1"]⟩)]⟩
        (fun agentId =>
          if agentId = "fb-1" then .success "data-1" else .failure "down")
        "tool-1" ["ghost", "fb-1"]).getD
        (.failure ("All agents failed for tool " ++ "tool-1" ++
          ". Primary: " ++ "primary-1")) :=
  (callToolWithFallback_routing
      ⟨[("fb-1", ⟨"fb-1", .healthy, ["tool-1"]⟩)]⟩
      (fun agentId =>
        if agentId = "fb-1" then .success "data-1" else .failure "down")
      "primary-1" "tool-1" ["ghost", "fb-1"]).2 "down" (by decide)

/-- Treasurer with one allocation of 20 of which 5 is reserved, one
pending ledger entry of amount 5, and its pending correlation. -/
def c5Treasurer : MasterTreasurer :=
  { budgetManager :=
      ⟨⟨100, 50, 10, 1⟩, [("agent-1", ⟨"agent-1", 20, 5⟩)]⟩,
    ledger :=
      ⟨[("auth-1", ⟨"auth-1", 0, "agent-1", "tool-1", 5, .pending, none,
          ⟨5⟩, "pay-1"⟩)], []⟩,
    pendingContexts := [("auth-1", ("agent-1", "tool-1"))] }

/-- Claim C5 fails on the code: a status outside the recognized
vocabulary ("mystery") is non-terminal — it maps to `pending` and the
correlation entry is kept — yet `onStatus` releases the correlated
reservation (reserved drops from 5 to 0), so release does not happen
exactly for terminal outcomes other than `accepted`. -/
theorem onStatus_releases_on_unknown_status :
    mapStatus "mystery" = .pending ∧
    aget (c5Treasurer.onStatus "2026-01-01" "mystery"
        "auth-1").budgetManager.agentAllocations "agent-1" =
      some ⟨"agent-1", 20, 0⟩ ∧
    (c5Treasurer.onStatus "2026-01-01" "mystery" "auth-1").pendingContexts =
      [("auth-1", ("agent-1", "tool-1"))] := by
  decide

/-- Claim C5 amended: `onStatus` maps {accepted, rejected, declined,
error, anything else} to ledger statuses {accepted, rejected, rejected,
error, pending} and updates the ledger accordingly; it releases the
correlated reservation for every delivered status other than
`accepted` and `sending` — unrecognized non-terminal statuses included
— whenever the correlation and the ledger entry exist; and it drops
the pending correlation exactly on {accepted, rejected, declined,
error}. -/
theorem onStatus_behavior (t : MasterTreasurer) (today s authId : String) :
    (mapStatus "accepted" = .accepted ∧ mapStatus "rejected" = .rejected ∧
     mapStatus "declined" = .rejected ∧ mapStatus "error" = .error ∧
     mapStatus "sending" = .pending ∧
     (¬ s = "accepted" → ¬ s = "rejected" → ¬ s = "declined" →
       ¬ s = "error" → mapStatus s = .pending)) ∧
    (t.onStatus today s authId).ledger =
      t.ledger.updateStatus today authId (mapStatus s) none ∧
    ((s = "accepted" ∨ s = "sending") →
      (t.onStatus today s authId).budgetManager = t.budgetManager) ∧
    (¬ s = "accepted" → ¬ s = "sending" →
      (t.onStatus today s authId).budgetManager =
        (match aget t.pendingContexts authId with
         | some ctx =>
           (match (t.ledger.updateStatus today authId (mapStatus s)
               none).getEntry authId with
            | some entry =>
              t.budgetManager.releaseReservation ctx.1 entry.amount
            | none => t.budgetManager)
         | none => t.budgetManager)) ∧
    ((t.onStatus today s authId).pendingContexts =
      if s = "accepted" ∨ s = "rejected" ∨ s = "declined" ∨ s = "error"
      then adel t.pendingContexts authId else t.pendingContexts) := by
  refine ⟨⟨rfl, rfl, rfl, rfl, rfl, ?_⟩, ?_, ?_, ?_, ?_⟩
  · intro h1 h2 h3 h4
    simp [mapStatus, h1, h2, h3, h4]
  · simp only [MasterTreasurer.onStatus]
    repeat' split
    all_goals rfl
  · intro h
    rcases h with h | h <;> subst h <;> rfl
  · intro h1 h2
    simp only [MasterTreasurer.onStatus, if_pos (And.intro h1 h2)]
    rcases hctx : aget t.pendingContexts authId with _ | ctx
    · simp only [hctx]
      split <;> rfl
    · simp only [hctx]
      rcases hentry : (t.ledger.updateStatus today authId (mapStatus s)
          none).getEntry authId with _ | entry
      · simp only [hentry]
        split <;> rfl
      · simp only [hentry]
        split <;> rfl
  · by_cases hc : s = "accepted" ∨ s = "rejected" ∨ s = "declined" ∨
        s = "error"
    · rw [if_pos hc]
      have hcont : (["accepted", "rejected", "declined",
          "error"] : List String).contains s = true := by
        rcases hc with h | h | h | h <;> subst h <;> decide
      simp only [MasterTreasurer.onStatus, hcont, if_pos trivial]
      repeat' split
      all_goals rfl
    · rw [if_neg hc]
      push_neg at hc
      obtain ⟨h1, h2, h3, h4⟩ := hc
      have hcont : (["accepted", "rejected", "declined",
          "error"] : List String).contains s = false := by
        simp [h1, h2, h3, h4]
      simp only [MasterTreasurer.onStatus, hcont]
      rw [if_neg Bool.false_ne_true]
      repeat' split
      all_goals rfl

/-- Closed instance of `onStatus_behavior`: the release clause at the
concrete treasurer on status "declined". -/
theorem onStatus_behavior_witness :
    (c5Treasurer.onStatus "2026-01-01" "declined" "auth-1").budgetManager =
      (match aget c5Treasurer.pendingContexts "auth-1" with
       | some ctx =>
         (match (c5Treasurer.ledger.updateStatus "2026-01-01" "auth-1"
             (mapStatus "declined") none).getEntry "auth-1" with
          | some entry =>
            c5Treasurer.budgetManager.releaseReservation ctx.1 entry.amount
          | none => c5Treasurer.budgetManager)
       | none => c5Treasurer.budgetManager) :=
  (onStatus_behavior c5Treasurer "2026-01-01" "declined" "auth-1").2.2.2.1
    (by decide) (by decide)

theorem aset_of_missing {α : Type} {m : AList α} {k : String} (v : α)
    (h : aget m k = none) : aset m k v = m ++ [(k, v)] := by
  induction m with
  | nil => rfl
  | cons q rest ih =>
    by_cases hk : q.1 = k
    · simp [aget, hk] at h
    · simp only [aget, if_neg hk] at h
      simp [aset, hk, ih h]

theorem aget_append_left_none {α : Type} {m1 m2 : AList α} {k : String}
    (h : aget m1 k = none) : aget (m1 ++ m2) k = aget m2 k := by
  induction m1 with
  | nil => rfl
  | cons q rest ih =>
    by_cases hk : q.1 = k
    · simp [aget, hk] at h
    · simp only [aget, if_neg hk] at h
      simp only [List.cons_append, aget, if_neg hk]
      exact ih h

theorem foldl_aset_append (es : List PaymentEntry) :
    ∀ acc : AList PaymentEntry,
      (∀ e ∈ es, aget acc e.id = none) →
      (es.map PaymentEntry.id).Nodup →
      es.foldl (fun m e => aset m e.id e) acc =
        acc ++ es.map (fun e => (e.id, e)) := by
  induction es with
  | nil =>
    intro acc _ _
    simp
  | cons e rest ih =>
    intro acc hacc hnd
    simp only [List.foldl_cons, List.map_cons]
    rw [aset_of_missing e (hacc e (List.mem_cons_self _ _))]
    rw [ih (acc ++ [(e.id, e)]) ?_ ?_]
    · rw [List.append_assoc]
      rfl
    · intro e' he'
      have hnd' : (∀ x ∈ rest, ¬ x.id = e.id) ∧
          (List.map PaymentEntry.id rest).Nodup := by simpa using hnd
      rw [aget_append_left_none (hacc e' (List.mem_cons_of_mem _ he'))]
      simp only [aget]
      rw [if_neg (fun h => hnd'.1 e' he' h.symm)]
    · have hnd' : (∀ x ∈ rest, ¬ x.id = e.id) ∧
          (List.map PaymentEntry.id rest).Nodup := by simpa using hnd
      exact hnd'.2

/-- Claim C6: importing the export of a well-formed ledger (keys
distinct and each entry keyed by its own id, as every reachable ledger
state is) reproduces the entry map and daily buckets exactly —
whatever ledger state the import overwrites — and hence identical
`totalSpent`, `spentByAgent`, and `todaySpending` values. -/
theorem export_import_roundtrip (l lprev : PaymentLedger)
    (hkeys : (l.entries.map Prod.fst).Nodup)
    (hids : ∀ p ∈ l.entries, p.2.id = p.1) :
    (lprev.importFromJson l.exportToJson).entries = l.entries ∧
    (lprev.importFromJson l.exportToJson).dailySpending = l.dailySpending ∧
    (lprev.importFromJson l.exportToJson).getTotalSpent = l.getTotalSpent ∧
    (∀ agentId, (lprev.importFromJson l.exportToJson).getSpentByAgent
      agentId = l.getSpentByAgent agentId) ∧
    (∀ today, (lprev.importFromJson l.exportToJson).getTodaySpending today =
      l.getTodaySpending today) := by
  have hmain : (lprev.importFromJson l.exportToJson).entries = l.entries := by
    unfold PaymentLedger.importFromJson PaymentLedger.exportToJson
    simp only
    rw [foldl_aset_append _ [] (fun _ _ => rfl) ?_]
    · rw [List.nil_append, List.map_map]
      have hpt : ∀ p ∈ l.entries,
          ((fun e => (PaymentEntry.id e, e)) ∘ Prod.snd) p = p := by
        intro p hp
        simp only [Function.comp_apply, hids p hp]
      exact (List.map_congr_left hpt).trans (by simp)
    · rw [List.map_map]
      have : l.entries.map (PaymentEntry.id ∘ Prod.snd) =
          l.entries.map Prod.fst := by
        apply List.map_congr_left
        intro p hp
        exact hids p hp
      rw [this]
      exact hkeys
  refine ⟨hmain, rfl, ?_, ?_, fun today => rfl⟩
  · unfold PaymentLedger.getTotalSpent
    rw [hmain]
  · intro agentId
    unfold PaymentLedger.getSpentByAgent
    rw [hmain]

/-- Closed instance of `export_import_roundtrip` at a one-entry ledger
with a nonempty daily bucket, imported over a different ledger. -/
theorem export_import_roundtrip_witness :
    ((⟨[("x", ⟨"x", 3, "agent-9", "t", 8, .pending, none, ⟨8⟩, "p"⟩)],
        []⟩ : PaymentLedger).importFromJson
      (⟨[("auth-1", ⟨"auth-1", 0, "agent-1", "tool-1", 5, .accepted, none,
            ⟨5⟩, "pay-1"⟩)], [("2026-01-01", 5)]⟩ :
          PaymentLedger).exportToJson).entries =
      [("auth-1", ⟨"auth-1", 0, "agent-1", "tool-1", 5, .accepted, none,
          ⟨5⟩, "pay-1"⟩)] :=
  (export_import_roundtrip
    ⟨[("auth-1", ⟨"auth-1", 0, "agent-1", "tool-1", 5, .accepted, none,
        ⟨5⟩, "pay-1"⟩)], [("2026-01-01", 5)]⟩
    ⟨[("x", ⟨"x", 3, "agent-9", "t", 8, .pending, none, ⟨8⟩, "p"⟩)], []⟩
    (by decide) (by decide)).1

end Walter
